import Mathlib

/- Verification of the go-bot repository (bot.go): a shallow embedding of its
   data model and operations, with theorems settling the specification claims.
   Go strings are modelled as `List Char`; the Go string-library functions used
   by bot.go (strings.HasPrefix, strings.Contains, strings.Split,
   strings.Replace with count 1, strings.ToLower) are embedded below.
   A Go runtime panic (slice index out of range) is modelled by `Option`:
   `none` means the operation faults. -/

namespace GoBot

/-- Character-list form of a string literal; Go strings are `List Char` here. -/
def strL (s : String) : List Char := s.data

/-- Go strings.HasPrefix s p: p is a prefix of s. -/
def goStartsWith (s p : List Char) : Bool :=
  match p, s with
  | [], _ => true
  | _ :: _, [] => false
  | d :: p2, c :: s2 => c == d && goStartsWith s2 p2

/-- Go strings.Contains s sub: sub occurs somewhere in s. -/
def goContains : List Char → List Char → Bool
  | [], sub => sub.isEmpty
  | c :: s, sub => goStartsWith (c :: s) sub || goContains s sub

/-- Go strings.HasSuffix s p: p is a suffix of s. -/
def goEndsWith (s p : List Char) : Bool :=
  goStartsWith s.reverse p.reverse

/-- Worker for goSplit: scans the string, cutting at each leftmost,
    non-overlapping occurrence of sep. The fuel equals the length of the
    remaining input, so the fuel-exhausted branch is unreachable. -/
def goSplitAux (sep : List Char) : Nat → List Char → List Char → List (List Char)
  | _, acc, [] => [acc.reverse]
  | 0, acc, rest => [acc.reverse ++ rest]
  | f + 1, acc, c :: s =>
    if goStartsWith (c :: s) sep = true then
      acc.reverse :: goSplitAux sep f [] (List.drop (sep.length - 1) s)
    else
      goSplitAux sep f (c :: acc) s

/-- Go strings.Split s sep (sep nonempty, as in every use in bot.go). -/
def goSplit (s sep : List Char) : List (List Char) :=
  goSplitAux sep s.length [] s

/-- Go strings.Replace s old new 1 with new = the empty string: deletes the
    first occurrence of old from s (both uses in bot.go have new = ""). -/
def goReplaceFirst (old : List Char) : List Char → List Char
  | [] => []
  | c :: s =>
    if goStartsWith (c :: s) old = true then List.drop old.length (c :: s)
    else c :: goReplaceFirst old s

/-- Go strings.ToLower (the keywords compared in bot.go are ASCII). -/
def goToLower (s : List Char) : List Char := s.map Char.toLower

/-- The Bot struct of bot.go. The net.Conn field is the socket handle and
    carries no data, so it is not part of the state; writes to it appear as
    outputs of the operations instead. The map fields are modelled by the
    lists of their entries (mods holds the keys mapped to true; no key is
    ever inserted with value false anywhere in the source). -/
structure Bot where
  server : List Char
  port : List Char
  nickname : List Char
  channel : List Char
  automsg : List Char
  autoMsgCount : Int
  mods : List (List Char)
  userLastMsg : List (List Char × Int)
  lastMsg : Int
  maxMsgTime : Int
  userMaxLastMsg : Int

/-- NewBot of bot.go: the constructor with its literal defaults; the mods map
    is created empty. -/
def NewBot : Bot :=
  { server := strL "irc.twitch.tv"
    port := strL "6667"
    nickname := strL "adefault"
    channel := strL "adefault"
    mods := []
    automsg := strL "This is a default test automessage"
    autoMsgCount := 5
    lastMsg := 0
    maxMsgTime := 3
    userLastMsg := []
    userMaxLastMsg := 2 }

/-- The command-line flags read at the top of main. -/
structure Flags where
  channel : List Char
  nickname : List Char
  automsg : List Char
  autoMsgCount : Int

/-- Lines 215-220 of main: when the channel flag is nonempty, the nickname,
    channel (prefixed with a hash mark), automsg and autoMsgCount fields are
    overwritten from the flags; mods is untouched. -/
def applyConfig (bot : Bot) (f : Flags) : Bot :=
  if f.channel ≠ [] then
    { bot with
        nickname := f.nickname
        channel := strL "#" ++ f.channel
        automsg := f.automsg
        autoMsgCount := f.autoMsgCount }
  else bot

/-- The owner name as the spec words it: the configured channel identifier
    with its leading hash mark removed. This is the spec-side definition,
    to be compared with the goReplaceFirst computation the code performs. -/
def ownerNameSpec (ch : List Char) : List Char :=
  if goStartsWith ch (strL "#") = true then ch.tail else ch

/-- isModerator of bot.go: true when the username is a key of the mods map
    or equals the channel with the first hash mark deleted. -/
def isModerator (bot : Bot) (username : List Char) : Bool :=
  let yourChannel := goReplaceFirst (strL "#") bot.channel
  if bot.mods.contains username = true ∨ username = yourChannel then true
  else false

/-- Message of bot.go, lines 89-102: the rate-limited sender. It returns the
    updated Bot and the raw wire lines written to the connection, or `none`
    when the fuel for the sleep-and-retry loop runs out (the Go code loops
    forever: sleep five seconds, retry). The console Printf is elided, as
    console logging is outside the core. `now` is the Unix-seconds clock;
    each five-second sleep advances it by five. -/
def Message : Nat → Bot → Int → List Char → Option (Bot × List (List Char))
  | fuel, bot, now, message =>
    if message = [] then some (bot, [])
    else if bot.lastMsg + bot.maxMsgTime ≤ now then
      some ({ bot with lastMsg := now },
        [strL "PRIVMSG " ++ bot.channel ++ strL " :" ++ message ++ strL "\r\n"])
    else
      match fuel with
      | 0 => none
      | f + 1 => Message f bot (now + 5) message

/-- timeout of bot.go, lines 150-158: the list of texts it submits to the
    rate-limited sender (bot.Message). When the target is a moderator the
    function prints a console diagnostic and returns without sending. -/
def timeout (bot : Bot) (username : List Char) : List (List Char) :=
  if isModerator bot username = true then []
  else [strL "/timeout " ++ username, strL "Timed out user: " ++ username]

/-- ban of bot.go, lines 160-168, as the list of texts submitted to the
    rate-limited sender. -/
def ban (bot : Bot) (username : List Char) : List (List Char) :=
  if isModerator bot username = true then []
  else [strL "/ban " ++ username, strL "Banned user: " ++ username]

/-- unban of bot.go, lines 170-178, as the list of texts submitted to the
    rate-limited sender. -/
def unban (bot : Bot) (username : List Char) : List (List Char) :=
  if isModerator bot username = true then []
  else [strL "/unban " ++ username, strL "Unbanned user: " ++ username]

/-- ParseCommand of bot.go, lines 183-198: the texts it submits to the
    rate-limited sender, or `none` when the Go code panics. The panic point
    is userinfo[1]: the command string is split on spaces and index 1 is read
    unconditionally once a keyword prefix matches. The keyword comparison is
    on the lowercased string, the target is taken from the original one. -/
def ParseCommand (bot : Bot) (user theCommand : List Char) :
    Option (List (List Char)) :=
  if isModerator bot user = true then
    let command := goToLower theCommand
    let userinfo := goSplit theCommand (strL " ")
    if goStartsWith command (strL ":!timeout") = true ∨
        goStartsWith command (strL "!timeout") = true then
      match userinfo[1]? with
      | none => none
      | some target => some (timeout bot target)
    else if goStartsWith command (strL ":!ban") = true ∨
        goStartsWith command (strL "!ban") = true then
      match userinfo[1]? with
      | none => none
      | some target => some (ban bot target)
    else if goStartsWith command (strL ":!unban") = true ∨
        goStartsWith command (strL "!unban") = true then
      match userinfo[1]? with
      | none => none
      | some target => some (unban bot target)
    else some []
  else some [strL "You are not a mod " ++ user]

/-- isWebsite of bot.go, lines 280-289: true when the string contains one of
    the six fixed domain suffixes. -/
def isWebsite (theWebsite : List Char) : Bool :=
  [strL ".com", strL ".net", strL ".org", strL ".tv", strL ".fm", strL ".gg"].any
    (fun suffix => goContains theWebsite suffix)

/-- An outbound effect of one event-loop iteration: either a raw wire write
    straight to the connection (bypassing the rate limiter) or a text
    submitted to the rate-limited sender bot.Message. -/
inductive Out where
  | wire (raw : List Char)
  | chat (msg : List Char)
  deriving DecidableEq

/-- The join marker searched for at line 252 of bot.go. -/
def joinMarker (bot : Bot) : List Char :=
  strL ".tmi.twitch.tv JOIN " ++ bot.channel

/-- The part marker searched for at line 256 of bot.go. -/
def partMarker (bot : Bot) : List Char :=
  strL ".tmi.twitch.tv PART " ++ bot.channel

/-- The private-message marker used at lines 261 and 268 of bot.go. -/
def privmsgMarker (bot : Bot) : List Char :=
  strL ".tmi.twitch.tv PRIVMSG " ++ bot.channel

/-- The body of the event loop of main, bot.go lines 238-272, for one inbound
    line: the outbound effects it produces, or `none` when the Go code panics
    with an index out of range. The panic points are msgParts[1] (a PING with
    no argument), userinfo[1] on the join and part branches (no at-sign before
    the marker), msgParts[3] (a line of fewer than four space-separated tokens
    reaching line 260), and userdata[1]/username[1] on the command and website
    branches. Console Printf logging is elided. -/
def processLine (bot : Bot) (line : List Char) : Option (List Out) :=
  let msgParts := goSplit line (strL " ")
  if msgParts.getD 0 [] = strL "PING" then
    match msgParts[1]? with
    | none => none
    | some tok => some [Out.wire (strL "PONG " ++ tok)]
  else if goContains line (joinMarker bot) = true then
    let joindata := goSplit line (joinMarker bot)
    let userinfo := goSplit (joindata.getD 0 []) (strL "@")
    match userinfo[1]? with
    | none => none
    | some u => some [Out.chat (strL "PogChamp User Joined: " ++ u)]
  else if goContains line (partMarker bot) = true then
    let joindata := goSplit line (partMarker bot)
    let userinfo := goSplit (joindata.getD 0 []) (strL "@")
    match userinfo[1]? with
    | none => none
    | some u => some [Out.chat (strL "BibleThump User Left: " ++ u)]
  else
    match msgParts[3]? with
    | none => none
    | some p3 =>
      if goStartsWith p3 (strL ":!") = true then
        let userdata := goSplit line (privmsgMarker bot)
        let username := goSplit (userdata.getD 0 []) (strL "@")
        match userdata[1]? with
        | none => none
        | some ud1 =>
          match username[1]? with
          | none => none
          | some issuer =>
            let usermessage := goReplaceFirst (strL " :") ud1
            (ParseCommand bot issuer usermessage).map (fun msgs => msgs.map Out.chat)
      else if isWebsite p3 = true then
        let userdata := goSplit line (privmsgMarker bot)
        let username := goSplit (userdata.getD 0 []) (strL "@")
        match username[1]? with
        | none => none
        | some u => some ((timeout bot u).map Out.chat)
      else some []

/-- The flag defaults of main, bot.go lines 206-209. -/
def flagsA : Flags :=
  { channel := strL "ajs94"
    nickname := strL "testbot"
    automsg := strL "This is an automessage message"
    autoMsgCount := 1 }

/-- The bot as main configures it with the default flags: channel "#ajs94",
    empty moderator set. -/
def botA : Bot := applyConfig NewBot flagsA

/-- The empty pattern is a prefix of every string. -/
theorem goStartsWith_nil (s : List Char) : goStartsWith s [] = true := by
  cases s <;> rfl

/-- Deleting the first occurrence of a pattern that does not occur is the
    identity. -/
theorem goReplaceFirst_eq_self (old : List Char) :
    ∀ s : List Char, goContains s old = false → goReplaceFirst old s = s := by
  intro s
  induction s with
  | nil => intro _; rfl
  | cons c s ih =>
    intro h
    unfold goContains at h
    rw [Bool.or_eq_false_iff] at h
    unfold goReplaceFirst
    rw [if_neg (by rw [h.1]; exact Bool.false_ne_true)]
    rw [ih h.2]

/-- On a channel that either starts with a hash mark or contains none, the
    yourChannel computation of isModerator (delete the first hash mark
    anywhere) agrees with the owner name as the spec words it (drop the
    leading hash mark). -/
theorem goReplaceFirst_hash_eq_owner (ch : List Char)
    (h : goStartsWith ch (strL "#") = true ∨ goContains ch (strL "#") = false) :
    goReplaceFirst (strL "#") ch = ownerNameSpec ch := by
  rcases h with h | h
  · cases ch with
    | nil => exact absurd h (by decide)
    | cons c rest =>
      have hc : c = '#' := by
        have h2 : (c == '#' && goStartsWith rest []) = true := h
        simp only [Bool.and_eq_true, beq_iff_eq] at h2
        exact h2.1
      subst hc
      unfold goReplaceFirst ownerNameSpec
      rw [if_pos h, if_pos h]
      rfl
  · have hs : goStartsWith ch (strL "#") = false := by
      cases ch with
      | nil => rfl
      | cons c rest =>
        unfold goContains at h
        rw [Bool.or_eq_false_iff] at h
        exact h.1
    rw [goReplaceFirst_eq_self (strL "#") ch h]
    unfold ownerNameSpec
    rw [if_neg (by rw [hs]; exact Bool.false_ne_true)]

/-- Characterization of isModerator on the channels the program can
    configure: membership in the mods map, or equality with the owner name
    in the sense of the spec. -/
theorem isModerator_iff_aux (bot : Bot) (u : List Char)
    (h : goStartsWith bot.channel (strL "#") = true ∨
      goContains bot.channel (strL "#") = false) :
    isModerator bot u = true ↔
      (bot.mods.contains u = true ∨ u = ownerNameSpec bot.channel) := by
  unfold isModerator
  rw [goReplaceFirst_hash_eq_owner bot.channel h]
  by_cases hp : bot.mods.contains u = true ∨ u = ownerNameSpec bot.channel
  · rw [if_pos hp]
    exact ⟨fun _ => hp, fun _ => rfl⟩
  · rw [if_neg hp]
    exact ⟨fun hfalse => absurd hfalse Bool.false_ne_true, fun hcontra => absurd hcontra hp⟩

/-- The rejection branch of ParseCommand: an issuer that is not a moderator
    gets exactly one message, the rejection naming the issuer, and no
    command dispatch happens. -/
theorem ParseCommand_reject (bot : Bot) (user cmd : List Char)
    (h : isModerator bot user = false) :
    ParseCommand bot user cmd = some [strL "You are not a mod " ++ user] := by
  unfold ParseCommand
  rw [if_neg (by rw [h]; exact Bool.false_ne_true)]

/-- No branch of Message touches the mods map: the sender only ever updates
    lastMsg. -/
theorem Message_preserves_mods :
    ∀ fuel bot now msg bot2 outs,
      Message fuel bot now msg = some (bot2, outs) → bot2.mods = bot.mods := by
  intro fuel
  induction fuel with
  | zero =>
    intro bot now msg bot2 outs h
    unfold Message at h
    split at h
    · simp only [Option.some.injEq, Prod.mk.injEq] at h
      rw [← h.1]
    · split at h
      · simp only [Option.some.injEq, Prod.mk.injEq] at h
        rw [← h.1]
      · exact Option.noConfusion h
  | succ f ih =>
    intro bot now msg bot2 outs h
    unfold Message at h
    split at h
    · simp only [Option.some.injEq, Prod.mk.injEq] at h
      rw [← h.1]
    · split at h
      · simp only [Option.some.injEq, Prod.mk.injEq] at h
        rw [← h.1]
      · exact ih bot (now + 5) msg bot2 outs h

/-- applyConfig never touches the mods map. -/
theorem applyConfig_preserves_mods (bot : Bot) (f : Flags) :
    (applyConfig bot f).mods = bot.mods := by
  unfold applyConfig
  split <;> rfl

/-- Every channel value the program can configure either starts with a hash
    mark (when the channel flag is nonempty, main sets channel to the flag
    value prefixed with one) or contains none (the NewBot default). -/
theorem applyConfig_channel_shape (f : Flags) :
    goStartsWith (applyConfig NewBot f).channel (strL "#") = true ∨
      goContains (applyConfig NewBot f).channel (strL "#") = false := by
  unfold applyConfig
  split
  · left
    show goStartsWith (strL "#" ++ f.channel) (strL "#") = true
    have hrw : strL "#" ++ f.channel = '#' :: f.channel := rfl
    rw [hrw]
    show (('#' : Char) == '#' && goStartsWith f.channel []) = true
    rw [Bool.and_eq_true]
    exact ⟨by decide, goStartsWith_nil f.channel⟩
  · right
    decide

/-- C1: the claim says a raw line that matches no recognized shape is
    classified Unrecognized and discarded without error, never indexing past
    the available whitespace-delimited tokens. The code violates this: the
    line "FOO" matches no shape, yet the event loop evaluates msgParts[3] on
    it and panics with an index out of range, modelled here by processLine
    returning `none`. -/
theorem unrecognized_short_line_faults : processLine botA (strL "FOO") = none := by
  decide

/-- C2: the claim says a recognized command keyword with no token after it is
    dropped with no action and no fault. The code violates this: with the
    owner "ajs94" as issuer (a moderator), the command "!timeout" has no
    target token, yet ParseCommand evaluates userinfo[1] and panics, modelled
    here by `none`. -/
theorem command_missing_target_faults :
    isModerator botA (strL "ajs94") = true ∧
      ParseCommand botA (strL "ajs94") (strL "!timeout") = none := by
  decide

/-- C4: the claim says the PONG reply echoes the token, bypasses the rate
    limiter, and is terminated by carriage-return plus newline like every
    other wire line. The code emits exactly one direct wire write echoing the
    token, but without the terminator: the written bytes do not end in the
    two-character CRLF sequence. -/
theorem pong_reply_missing_crlf :
    processLine botA (strL "PING :tmi.twitch.tv") =
        some [Out.wire (strL "PONG :tmi.twitch.tv")] ∧
      goEndsWith (strL "PONG :tmi.twitch.tv") (strL "\r\n") = false := by
  decide

/-- C5: the claim says a non-command chat line whose message body contains a
    configured domain suffix anywhere causes exactly one timeout of the
    sender. The code violates this on the very scenario the spec gives: the
    body "check out spam.com" contains ".com", but the event loop tests only
    the fourth whitespace token ":check" of the raw line with isWebsite, so
    no timeout directive is produced (the line is dropped with no output). -/
theorem link_filter_misses_body :
    goContains (strL "check out spam.com") (strL ".com") = true ∧
      isWebsite (strL ":check") = false ∧
      processLine botA
          (strL ":user1!user1@user1.tmi.twitch.tv PRIVMSG #ajs94 :check out spam.com") =
        some [] := by
  decide

/-- C6: each punishment function first checks the target: a privileged target
    is refused with no directive sent, and a non-privileged target gets
    exactly one protocol directive followed by exactly one human-readable
    confirmation, both submitted to the rate-limited sender. -/
theorem punishment_guard (bot : Bot) (target : List Char) :
    (isModerator bot target = true →
      timeout bot target = [] ∧ ban bot target = [] ∧ unban bot target = []) ∧
    (isModerator bot target = false →
      timeout bot target =
          [strL "/timeout " ++ target, strL "Timed out user: " ++ target] ∧
        ban bot target = [strL "/ban " ++ target, strL "Banned user: " ++ target] ∧
        unban bot target =
          [strL "/unban " ++ target, strL "Unbanned user: " ++ target]) := by
  constructor
  · intro h
    refine ⟨?_, ?_, ?_⟩ <;> simp [timeout, ban, unban, h]
  · intro h
    refine ⟨?_, ?_, ?_⟩ <;> simp [timeout, ban, unban, h]

/-- Witness for C6: on the configured bot, the owner "ajs94" is privileged
    and is refused; "alice" is not and gets the directive plus the
    confirmation. -/
theorem punishment_guard_witness :
    isModerator botA (strL "ajs94") = true ∧
      timeout botA (strL "ajs94") = [] ∧
      isModerator botA (strL "alice") = false ∧
      timeout botA (strL "alice") =
        [strL "/timeout " ++ strL "alice", strL "Timed out user: " ++ strL "alice"] :=
  ⟨by decide, ((punishment_guard botA (strL "ajs94")).1 (by decide)).1, by decide,
    ((punishment_guard botA (strL "alice")).2 (by decide)).1⟩

/-- C7: dispatching any command for an issuer that is not a moderator
    produces exactly the rejection message naming the issuer, and no
    moderation directive. -/
theorem dispatch_rejects_nonmoderator (bot : Bot) (user cmd : List Char)
    (h : isModerator bot user = false) :
    ParseCommand bot user cmd = some [strL "You are not a mod " ++ user] :=
  ParseCommand_reject bot user cmd h

/-- Witness for C7: "carol" is neither in the mods map nor the owner of
    "#ajs94", so her timeout command yields only the rejection. -/
theorem dispatch_rejects_nonmoderator_witness :
    ParseCommand botA (strL "carol") (strL "!timeout alice") =
      some [strL "You are not a mod " ++ strL "carol"] :=
  dispatch_rejects_nonmoderator botA (strL "carol") (strL "!timeout alice") (by decide)

/-- C8: submitting the empty string to the rate-limited sender is a no-op:
    no wire write, and the returned state is exactly the input state, so
    lastMsg is unchanged, for every fuel, state and clock value. -/
theorem Message_empty_noop (fuel : Nat) (bot : Bot) (now : Int) :
    Message fuel bot now [] = some (bot, []) := by
  unfold Message
  rw [if_pos rfl]

/-- C9: on every channel the program can configure (the first conjunct shows
    each such channel starts with a hash mark or contains none), isModerator
    returns true exactly when the username is a key of the mods map or equals
    the channel owner name, the channel identifier with its leading hash mark
    removed. The embedding is a pure function, mirroring the side-effect-free
    Go code. -/
theorem isModerator_spec :
    (∀ f : Flags,
      goStartsWith (applyConfig NewBot f).channel (strL "#") = true ∨
        goContains (applyConfig NewBot f).channel (strL "#") = false) ∧
    (∀ (bot : Bot) (u : List Char),
      (goStartsWith bot.channel (strL "#") = true ∨
        goContains bot.channel (strL "#") = false) →
      (isModerator bot u = true ↔
        (bot.mods.contains u = true ∨ u = ownerNameSpec bot.channel))) :=
  ⟨applyConfig_channel_shape, fun bot u h => isModerator_iff_aux bot u h⟩

/-- Witness for C9: the owner of "#ajs94" is "ajs94", and the check accepts
    it. -/
theorem isModerator_spec_witness : isModerator botA (strL "ajs94") = true :=
  (isModerator_spec.2 botA (strL "ajs94") (Or.inl (by decide))).mpr (Or.inr (by decide))

/-- C10: the mods map is created empty by NewBot and no operation adds or
    removes a member (the state-updating operations of the embedding, the
    rate-limited sender and the startup configuration, preserve it; no other
    code in bot.go mentions the map at all), so with an empty mods map
    isModerator accepts exactly the channel owner, and every command whose
    issuer differs from the owner is rejected with no directive. -/
theorem modset_constant :
    NewBot.mods = [] ∧
    (∀ fuel bot now msg bot2 outs,
      Message fuel bot now msg = some (bot2, outs) → bot2.mods = bot.mods) ∧
    (∀ (bot : Bot) (f : Flags), (applyConfig bot f).mods = bot.mods) ∧
    (∀ (bot : Bot) (u : List Char), bot.mods = [] →
      (goStartsWith bot.channel (strL "#") = true ∨
        goContains bot.channel (strL "#") = false) →
      (isModerator bot u = true ↔ u = ownerNameSpec bot.channel)) ∧
    (∀ (bot : Bot) (u cmd : List Char), bot.mods = [] →
      u ≠ ownerNameSpec bot.channel →
      (goStartsWith bot.channel (strL "#") = true ∨
        goContains bot.channel (strL "#") = false) →
      ParseCommand bot u cmd = some [strL "You are not a mod " ++ u]) := by
  refine ⟨rfl, Message_preserves_mods, applyConfig_preserves_mods, ?_, ?_⟩
  · intro bot u hmods hch
    rw [isModerator_iff_aux bot u hch, hmods]
    simp
  · intro bot u cmd hmods hne hch
    have hmod : isModerator bot u = false := by
      cases hb : isModerator bot u with
      | false => rfl
      | true =>
        rcases (isModerator_iff_aux bot u hch).mp hb with hin | hown
        · rw [hmods] at hin
          simp at hin
        · exact absurd hown hne
    exact ParseCommand_reject bot u cmd hmod

/-- Witness for C10: the configured bot has an empty mods map, and a command
    from "mallory", who is not the owner, is rejected. -/
theorem modset_constant_witness :
    botA.mods = [] ∧
      ParseCommand botA (strL "mallory") (strL "!ban alice") =
        some [strL "You are not a mod " ++ strL "mallory"] :=
  ⟨by decide,
    modset_constant.2.2.2.2 botA (strL "mallory") (strL "!ban alice") (by decide)
      (by decide) (Or.inl (by decide))⟩

end GoBot
